import Mathlib

/-!
Verification of the XRPL token-monitoring core: the ledger RPC client
(`validateXRPLAddress`, `retryWithBackoff`, `makeXRPLRequest`, the three fetch
operations), the currency codec (`hexToString`, `stringToHex`) and the token
whitelist store (`loadTokenConfig`, `addToken`, `removeToken`, `updateToken`,
`isTokenWhitelisted`) from `src/frontend/src/lib/xrpl.ts`.

Modelling conventions: JavaScript strings are modelled as Lean `String`
(sequences of Unicode scalar values; the program only exercises the basic
multilingual plane, where `Char.toNat` coincides with `charCodeAt`).
JavaScript numbers reaching `String.fromCharCode` are modelled as
`Option Int`, with `none` standing for `NaN`.  Asynchronous effects
(network, `localStorage`) are modelled by explicit state passing: the RPC
client takes a script of transport outcomes, the store takes the persisted
collection.  Waiting is modelled by recording the list of delays requested.
-/

/-- Set of characters removed by the JavaScript `String.prototype.trim` and
skipped by `parseInt`: ECMAScript WhiteSpace and LineTerminator code points. -/
def jsIsWhitespace (c : Char) : Bool :=
  let n := c.toNat
  n == 9 || n == 10 || n == 11 || n == 12 || n == 13 || n == 32 || n == 160 ||
  n == 0x1680 || (0x2000 ≤ n && n ≤ 0x200A) || n == 0x2028 || n == 0x2029 ||
  n == 0x202F || n == 0x205F || n == 0x3000 || n == 0xFEFF

/-- JavaScript `String.prototype.trim`: strips whitespace from both ends. -/
def jsTrim (s : String) : String :=
  String.mk (((s.toList.dropWhile jsIsWhitespace).reverse.dropWhile jsIsWhitespace).reverse)

/-- Trailing-whitespace-only trim (used by the reference decoder the
specification describes, which asks for trailing trim only). -/
def jsTrimEnd (s : String) : String :=
  String.mk ((s.toList.reverse.dropWhile jsIsWhitespace).reverse)

/-- ASCII fragment of JavaScript `toLowerCase`, the fragment the program
exercises (currency codes and base58 addresses). -/
def asciiLowerChar (c : Char) : Char :=
  if 65 ≤ c.toNat && c.toNat ≤ 90 then Char.ofNat (c.toNat + 32) else c

/-- ASCII fragment of JavaScript `toUpperCase`. -/
def asciiUpperChar (c : Char) : Char :=
  if 97 ≤ c.toNat && c.toNat ≤ 122 then Char.ofNat (c.toNat - 32) else c

/-- Character-wise lowercase of a string. -/
def jsToLower (s : String) : String := String.mk (s.toList.map asciiLowerChar)

/-- Character-wise uppercase of a string. -/
def jsToUpper (s : String) : String := String.mk (s.toList.map asciiUpperChar)

/-- Hexadecimal digit (either case), as accepted by `parseInt(_, 16)`. -/
def isHexDigit (c : Char) : Bool :=
  (48 ≤ c.toNat && c.toNat ≤ 57) || (97 ≤ c.toNat && c.toNat ≤ 102) ||
    (65 ≤ c.toNat && c.toNat ≤ 70)

/-- Value of a hexadecimal digit (0 for other characters). -/
def hexDigitVal (c : Char) : Nat :=
  if 48 ≤ c.toNat && c.toNat ≤ 57 then c.toNat - 48
  else if 97 ≤ c.toNat && c.toNat ≤ 102 then c.toNat - 87
  else if 65 ≤ c.toNat && c.toNat ≤ 70 then c.toNat - 55
  else 0

/-- JavaScript `parseInt(s, 16)`: skip leading whitespace, optional sign,
optional `0x` prefix, then the longest prefix of hex digits; `none` models
`NaN` (empty digit prefix).  Trailing garbage is ignored. -/
def jsParseIntHex (cs : List Char) : Option Int :=
  let cs1 := cs.dropWhile jsIsWhitespace
  let neg := cs1.headD ' ' == '-'
  let cs2 := if neg || cs1.headD ' ' == '+' then cs1.tail else cs1
  let cs3 :=
    if cs2.headD ' ' == '0' && (cs2.tail.headD ' ' == 'x' || cs2.tail.headD ' ' == 'X') then
      cs2.tail.tail
    else cs2
  let ds := cs3.takeWhile isHexDigit
  if ds.isEmpty then none
  else
    let mag : Int := Int.ofNat (ds.foldl (fun acc c => 16 * acc + hexDigitVal c) 0)
    some (if neg then -mag else mag)

/-- JavaScript `String.fromCharCode` applied to a number that may be `NaN`
(`none`): `ToUint16` semantics. -/
def jsFromCharCode (v : Option Int) : Char :=
  match v with
  | none => Char.ofNat 0
  | some n => Char.ofNat (n % 65536).toNat

/-- Loop body of `hexToString`: walk the string two characters at a time
(`substr(i, 2)`), stop at a parsed char code strictly equal to `0`
(`charCode === 0`), otherwise append `String.fromCharCode(charCode)`. -/
def decodeHexPairs : List Char → List Char
  | [] => []
  | [a] =>
    let v := jsParseIntHex [a]
    if v == some 0 then [] else [jsFromCharCode v]
  | a :: b :: rest =>
    let v := jsParseIntHex [a, b]
    if v == some 0 then [] else jsFromCharCode v :: decodeHexPairs rest

/-- Function `hexToString` from `xrpl.ts` (lines 247-265): strings whose length is not
40 are returned unchanged; otherwise byte pairs are decoded until a zero char
code, the result is trimmed, and an empty result falls back to the input
(`str.trim() || hex`).  The `catch` branch of the source is unreachable since
`parseInt` never throws. -/
def hexToString (hex : String) : String :=
  if hex.length ≠ 40 then hex
  else
    let str := String.mk (decodeHexPairs hex.toList)
    let trimmed := jsTrim str
    if trimmed.isEmpty then hex else trimmed

/-- JavaScript `Number.prototype.toString(16)` for non-negative integers:
lowercase hex digits, no padding. -/
def natToHexLower (n : Nat) : String := String.mk (Nat.toDigits 16 n)

/-- JavaScript `String.prototype.padStart(n, c)`. -/
def jsPadStart (s : String) (n : Nat) (c : Char) : String :=
  if n ≤ s.length then s else String.mk (List.replicate (n - s.length) c ++ s.toList)

/-- JavaScript `String.prototype.padEnd(n, c)`. -/
def jsPadEnd (s : String) (n : Nat) (c : Char) : String :=
  if n ≤ s.length then s else String.mk (s.toList ++ List.replicate (n - s.length) c)

/-- Function `stringToHex` from `xrpl.ts` (lines 268-281): length-3 strings are
returned unchanged; otherwise each char code becomes
`toString(16).padStart(2, '0')`, the concatenation is padded with `'0'` to 40
characters and uppercased. -/
def stringToHex (str : String) : String :=
  if str.length == 3 then str
  else
    let hex := (str.toList.map (fun c => (jsPadStart (natToHexLower c.toNat) 2 '0').toList)).flatten
    jsToUpper (jsPadEnd (String.mk hex) 40 '0')

/-- Function `validateXRPLAddress` from `xrpl.ts` (lines 40-43): the regular
expression `^r[1-9A-HJ-NP-Za-km-z]\x7b24,34\x7d$`. -/
def isBase58Char (c : Char) : Bool :=
  let n := c.toNat
  ((49 ≤ n && n ≤ 57) || (65 ≤ n && n ≤ 90) || (97 ≤ n && n ≤ 122)) &&
    !(n == 73) && !(n == 79) && !(n == 108)

/-- Address validator: leading `r`, then 24 to 34 base58 characters. -/
def validateXRPLAddress (address : String) : Bool :=
  match address.toList with
  | 'r' :: rest => 24 ≤ rest.length && rest.length ≤ 34 && rest.all isBase58Char
  | _ => false

/-- Interface `TokenConfig` from `xrpl.ts` (lines 238-242). -/
structure TokenConfig where
  currency : String
  issuer : String
  customName : Option String
deriving DecidableEq, Repr

/-- The persisted whitelist: `none` models an empty `localStorage` slot for
the config key, `some l` a stored JSON array already parsed to entries. -/
structure StorageState where
  stored : Option (List TokenConfig)
deriving DecidableEq, Repr

/-- Constant `DEFAULT_TOKENS` from `xrpl.ts` (lines 284-340). -/
def DEFAULT_TOKENS : List TokenConfig :=
  [ ⟨"GreedyJEW", "rdRvw4pKmEtSnz3cjXBL6HLJJmejtkoQ4", some "GreedyJEW Token"⟩,
    ⟨"JewNomicaN", "rEz5RdLqRex7YxYZ1bEskCDHbvKy3zcUnq", some "JewNomicaN"⟩,
    ⟨"HEBROID", "rdRvw4pKmEtSnz3cjXBL6HLJJmejtkoQ4", some "HEBROID"⟩,
    ⟨"ASC", "r3qWgpz2ry3BhcRJ8JE6rxM8esrfhuKp4R", some "Ascension"⟩,
    ⟨"RPR", "r3qWgpz2ry3BhcRJ8JE6rxM8esrfhuKp4R", some "Reaper"⟩,
    ⟨"PLR", "rNSYhWLhuHvmURwWbJPBKZMSPsyG5Qek17", some "Pylons"⟩,
    ⟨"ARK", "rf5Jzzy6oAFBJjLhokha1v8pXVgYYjee3b", some "Ark Institute"⟩,
    ⟨"Schmeckles", "rPxw83ZP6thv7KmG5DpAW4cDW55DZRZ9wu", some "Schmeckles"⟩,
    ⟨"MKS", "rwU8xXxSQPzqX7DEfeSUdUjb5NB17ixkzJ", some "MKS"⟩,
    ⟨"TriForce", "rGeevxdLguXxvh7RmUmMEXr7DSRNTXPRpX", some "TriForce"⟩,
    ⟨"DeerChickenn", "rw3DPxgusRrvdsbXSjHdXD14ogkNidTTRx", some "DeerChickenn"⟩ ]

/-- Exact duplicate-detection key test used throughout the store:
`t.currency === other.currency && t.issuer === other.issuer`. -/
def keyEq (t u : TokenConfig) : Bool :=
  t.currency == u.currency && t.issuer == u.issuer

/-- Function `saveTokenConfig` from `xrpl.ts` (lines 394-402): a single overwriting
write of the serialized list (the quota-exceeded path is not modelled; every
claim under verification is about accepted writes). -/
def saveTokenConfig (tokens : List TokenConfig) (_st : StorageState) : StorageState :=
  ⟨some tokens⟩

/-- One step of the forward merge in `loadTokenConfig`: append the default
entry unless an entry with the same exact key is already present. -/
def mergeStep (merged : List TokenConfig) (d : TokenConfig) : List TokenConfig :=
  if merged.any (fun t => keyEq t d) then merged else merged ++ [d]

/-- Function `loadTokenConfig` from `xrpl.ts` (lines 352-392): seed the defaults when
nothing is stored; forward-merge and re-persist when the stored list is
shorter than the default list; otherwise return the stored list unchanged.
The deserialization-failure fallback branch is not reachable in this model,
where stored state is already structured. -/
def loadTokenConfig (st : StorageState) : List TokenConfig × StorageState :=
  match st.stored with
  | none => (DEFAULT_TOKENS, saveTokenConfig DEFAULT_TOKENS st)
  | some parsed =>
    if parsed.length < DEFAULT_TOKENS.length then
      let merged := DEFAULT_TOKENS.foldl mergeStep parsed
      (merged, saveTokenConfig merged st)
    else (parsed, st)

/-- Store-level error outcomes (the `throw new Error(...)` sites of the
store; messages abstracted to their §7 taxonomy). -/
inductive StoreError where
  | invalidAddress : StoreError
  | duplicateToken : StoreError
  | notFound : StoreError
deriving DecidableEq, Repr

/-- Function `addToken` from `xrpl.ts` (lines 404-423).  Note the source loads (and
possibly merges and re-persists) before validating. -/
def addToken (token : TokenConfig) (st : StorageState) : Except StoreError Unit × StorageState :=
  let loaded := loadTokenConfig st
  let tokens := loaded.1
  let st1 := loaded.2
  if !validateXRPLAddress token.issuer then (Except.error StoreError.invalidAddress, st1)
  else if tokens.any (fun t => keyEq t token) then (Except.error StoreError.duplicateToken, st1)
  else (Except.ok (), saveTokenConfig (tokens ++ [token]) st1)

/-- Function `removeToken` from `xrpl.ts` (lines 425-431). -/
def removeToken (currency issuer : String) (st : StorageState) : StorageState :=
  let loaded := loadTokenConfig st
  let filtered := loaded.1.filter (fun t => !(t.currency == currency && t.issuer == issuer))
  saveTokenConfig filtered loaded.2

/-- JavaScript `Array.prototype.findIndex` (with `none` for `-1`). -/
def jsFindIndex (p : TokenConfig → Bool) : List TokenConfig → Option Nat
  | [] => none
  | t :: rest => if p t then some 0 else (jsFindIndex p rest).map (· + 1)

/-- JavaScript `Array.prototype.some` with the element index in the callback,
starting the index count at `k`. -/
def anyIdx (p : Nat → TokenConfig → Bool) (k : Nat) : List TokenConfig → Bool
  | [] => false
  | t :: rest => p k t || anyIdx p (k + 1) rest

/-- Function `updateToken` from `xrpl.ts` (lines 433-463): validate the new issuer,
locate the old key, reject a new key colliding with a different index,
otherwise replace in place. -/
def updateToken (oldCurrency oldIssuer : String) (newToken : TokenConfig)
    (st : StorageState) : Except StoreError Unit × StorageState :=
  if !validateXRPLAddress newToken.issuer then (Except.error StoreError.invalidAddress, st)
  else
    let loaded := loadTokenConfig st
    let tokens := loaded.1
    let st1 := loaded.2
    match jsFindIndex (fun t => t.currency == oldCurrency && t.issuer == oldIssuer) tokens with
    | none => (Except.error StoreError.notFound, st1)
    | some index =>
      if anyIdx (fun i t => !(i == index) && keyEq t newToken) 0 tokens then
        (Except.error StoreError.duplicateToken, st1)
      else (Except.ok (), saveTokenConfig (tokens.set index newToken) st1)

/-- Function `isTokenWhitelisted` from `xrpl.ts` (lines 465-522): normalize the
observed issuer with `toLowerCase().trim()`, classify the observed currency
as 40-hex or plain, and scan the loaded whitelist. -/
def isTokenWhitelisted (currency issuer : String) (st : StorageState) : Bool × StorageState :=
  let loaded := loadTokenConfig st
  let normalizedIssuer := jsTrim (jsToLower issuer)
  let isHexCurrency := currency.length == 40 && currency.toList.all isHexDigit
  let matched := loaded.1.any fun t =>
    if jsTrim (jsToLower t.issuer) != normalizedIssuer then false
    else if isHexCurrency then
      jsToLower (hexToString currency) == jsToLower t.currency ||
        jsToLower currency == jsToLower (stringToHex t.currency)
    else jsToLower currency == jsToLower t.currency
  (matched, loaded.2)

/-- Interface `AccountInfo` from `xrpl.ts` (lines 10-18). -/
structure AccountInfo where
  Account : String
  Balance : String
  Flags : Nat
  OwnerCount : Nat
  Sequence : Nat
deriving DecidableEq, Repr

/-- Interface `TrustLine` from `xrpl.ts` (lines 20-28). -/
structure TrustLine where
  account : String
  balance : String
  currency : String
  limit : String
  limit_peer : String
deriving DecidableEq, Repr

/-- Interface `NFToken` from `xrpl.ts` (lines 30-37). -/
structure NFToken where
  Flags : Nat
  Issuer : String
  NFTokenID : String
  NFTokenTaxon : Nat
  nft_serial : Nat
deriving DecidableEq, Repr

/-- Constant `XRPL_SERVERS` from `xrpl.ts` (lines 2-6). -/
def XRPL_SERVERS : List String :=
  ["https://xrplcluster.com", "https://s1.ripple.com:51234", "https://s2.ripple.com:51234"]

/-- Errors raised by the RPC client, one constructor per `throw` site of
`makeXRPLRequest` and the fetch operations (messages abstracted to the data
they embed).  `thrownNull` models the `throw lastError` of the retry wrapper
when no attempt ran (`lastError` still `null`); it is unreachable for the
fixed budget of 3 attempts. -/
inductive XrplError where
  | invalidAddress : String → XrplError
  | networkError : String → XrplError
  | serverError : Nat → XrplError
  | apiError : String → XrplError
  | malformedResponse : XrplError
  | missingAccountData : XrplError
  | thrownNull : XrplError
deriving DecidableEq, Repr

/-- Mutable module state of the RPC client: the failover cursor
`currentServerIndex` and the number of transport requests issued so far (the
latter indexes into the outcome script and counts network calls). -/
structure ClientState where
  serverIndex : Nat
  requestCount : Nat
deriving DecidableEq, Repr

/-- Fields of a `data.result` payload that the three fetch operations
inspect.  `none` models an absent field. -/
structure RpcPayload where
  error : Option String
  error_message : Option String
  account_data : Option AccountInfo
  lines : Option (List TrustLine)
  account_nfts : Option (List NFToken)
deriving DecidableEq, Repr

/-- Outcome of one raw transport attempt: the `fetch` call throws, returns a
non-2xx status, or returns a JSON body (whose `result` field may be absent). -/
inductive RpcOutcome where
  | networkError : RpcOutcome
  | httpError : Nat → RpcOutcome
  | payload : Option RpcPayload → RpcOutcome
deriving DecidableEq, Repr

/-- JavaScript truthiness of an optional string field (absent or empty means
falsy). -/
def jsTruthy (o : Option String) : Bool :=
  match o with
  | none => false
  | some s => !s.isEmpty

/-- The `error_message || error` fallback of `makeXRPLRequest` (line 121). -/
def jsOrString (a b : Option String) : String :=
  if jsTruthy a then a.getD "" else b.getD ""

/-- Does a scripted outcome make `makeXRPLRequest` throw?  Mirrors the error
paths of lines 104-129: thrown transport errors, non-2xx statuses, truthy
`result.error` payloads and bodies without a `result` field. -/
def RpcOutcome.fails : RpcOutcome → Bool
  | RpcOutcome.networkError => true
  | RpcOutcome.httpError _ => true
  | RpcOutcome.payload none => true
  | RpcOutcome.payload (some p) => jsTruthy p.error

/-- Function `makeXRPLRequest` from `xrpl.ts` (lines 70-143), for the account-query
methods (all pass `params [0].account`): validate the address, issue one
transport attempt (consuming one scripted outcome), advance the failover
cursor on a non-2xx status (clamped at the last server), classify API errors
and missing `result` fields. -/
def makeXRPLRequest (script : Nat → RpcOutcome) (account : String)
    (s : ClientState) : Except XrplError RpcPayload × ClientState :=
  if !validateXRPLAddress account then
    (Except.error (XrplError.invalidAddress account), s)
  else
    let outcome := script s.requestCount
    let s1 : ClientState := ⟨s.serverIndex, s.requestCount + 1⟩
    match outcome with
    | RpcOutcome.networkError =>
      (Except.error (XrplError.networkError (XRPL_SERVERS.getD s.serverIndex "")), s1)
    | RpcOutcome.httpError status =>
      let s2 : ClientState :=
        if s1.serverIndex < XRPL_SERVERS.length - 1 then
          ⟨s1.serverIndex + 1, s1.requestCount⟩
        else s1
      (Except.error (XrplError.serverError status), s2)
    | RpcOutcome.payload none => (Except.error XrplError.malformedResponse, s1)
    | RpcOutcome.payload (some p) =>
      if jsTruthy p.error then (Except.error (XrplError.apiError (jsOrString p.error_message p.error)), s1)
      else (Except.ok p, s1)

/-- Loop of `retryWithBackoff` (lines 53-65): `remaining` attempts are left,
`attempt` is the 0-based index of the next one, `delays` records the waits
performed so far (`initialDelay * 2 ^ attempt` after each non-final failure). -/
def retryGo {σ ε α : Type} (fn : σ → Except ε α × σ) (initialDelay : Nat) :
    Nat → Nat → σ → List Nat → Except (Option ε) α × σ × List Nat
  | 0, _, s, delays => (Except.error none, s, delays)
  | 1, _, s, delays =>
    match fn s with
    | (Except.ok a, s1) => (Except.ok a, s1, delays)
    | (Except.error e, s1) => (Except.error (some e), s1, delays)
  | (n + 2), attempt, s, delays =>
    match fn s with
    | (Except.ok a, s1) => (Except.ok a, s1, delays)
    | (Except.error _, s1) =>
      retryGo fn initialDelay (n + 1) (attempt + 1) s1 (delays ++ [initialDelay * 2 ^ attempt])

/-- Function `retryWithBackoff` from `xrpl.ts` (lines 46-68): up to `maxRetries`
attempts; after each failed non-final attempt wait `initialDelay * 2 ^ k`;
after the final failure re-raise the last error. -/
def retryWithBackoff {σ ε α : Type} (fn : σ → Except ε α × σ)
    (maxRetries initialDelay : Nat) (s : σ) : Except (Option ε) α × σ × List Nat :=
  retryGo fn initialDelay maxRetries 0 s []

/-- Collapse the `Option` error of the retry wrapper back into an `XrplError`
(`throw lastError` with `lastError` possibly still `null`). -/
def liftRetryError (e : Option XrplError) : XrplError :=
  e.getD XrplError.thrownNull

/-- Function `fetchAccountInfo` from `xrpl.ts` (lines 145-176): validate before any
network call, retry the `account_info` request, fail on a missing
`account_data` field, re-raise retry errors. -/
def fetchAccountInfo (script : Nat → RpcOutcome) (account : String)
    (s : ClientState) : Except XrplError AccountInfo × ClientState × List Nat :=
  if !validateXRPLAddress account then
    (Except.error (XrplError.invalidAddress account), s, [])
  else
    match retryWithBackoff (makeXRPLRequest script account) 3 1000 s with
    | (Except.ok p, s1, delays) =>
      match p.account_data with
      | none => (Except.error XrplError.missingAccountData, s1, delays)
      | some ad => (Except.ok ad, s1, delays)
    | (Except.error e, s1, delays) => (Except.error (liftRetryError e), s1, delays)

/-- Function `fetchAccountLines` from `xrpl.ts` (lines 178-205): same shape, missing
`lines` degrades to the empty list (`result.lines || []`). -/
def fetchAccountLines (script : Nat → RpcOutcome) (account : String)
    (s : ClientState) : Except XrplError (List TrustLine) × ClientState × List Nat :=
  if !validateXRPLAddress account then
    (Except.error (XrplError.invalidAddress account), s, [])
  else
    match retryWithBackoff (makeXRPLRequest script account) 3 1000 s with
    | (Except.ok p, s1, delays) => (Except.ok (p.lines.getD []), s1, delays)
    | (Except.error e, s1, delays) => (Except.error (liftRetryError e), s1, delays)

/-- Function `fetchAccountNFTs` from `xrpl.ts` (lines 207-235): the address check
throws outside the `try`, but every failure of the retried request is caught
and swallowed into an empty list. -/
def fetchAccountNFTs (script : Nat → RpcOutcome) (account : String)
    (s : ClientState) : Except XrplError (List NFToken) × ClientState × List Nat :=
  if !validateXRPLAddress account then
    (Except.error (XrplError.invalidAddress account), s, [])
  else
    match retryWithBackoff (makeXRPLRequest script account) 3 1000 s with
    | (Except.ok p, s1, delays) => (Except.ok (p.account_nfts.getD []), s1, delays)
    | (Except.error _, s1, delays) => (Except.ok [], s1, delays)

/-- Exact (currency, issuer) identity key of an entry. -/
def keyOf (t : TokenConfig) : String × String := (t.currency, t.issuer)

/-- No two entries of the list share the same exact (currency, issuer) key
(the store invariant of §3 of the specification). -/
def nodupKeysB : List TokenConfig → Bool
  | [] => true
  | t :: rest => !rest.any (fun u => keyEq t u) && nodupKeysB rest

/-- The store invariant lifted to a whole storage state. -/
def nodupStoreB (st : StorageState) : Bool :=
  match st.stored with
  | none => true
  | some l => nodupKeysB l

/-- Payload delivered on the third attempt of the retry scenario. -/
def retryScenarioPayload : RpcPayload :=
  ⟨none, none, some ⟨"rdRvw4pKmEtSnz3cjXBL6HLJJmejtkoQ4", "1000", 0, 0, 1⟩, some [], some []⟩

/-- Transport script for the fail-fail-success retry scenario. -/
def retryScenarioScript : Nat → RpcOutcome :=
  fun n =>
    if n < 2 then RpcOutcome.networkError
    else RpcOutcome.payload (some retryScenarioPayload)

/-- Issuer comparison as §4.5 of the specification words it: the two issuers
are equal after trimming and lowercasing both. -/
def specIssuerMatches (entryIssuer obsIssuer : String) : Bool :=
  jsToLower (jsTrim entryIssuer) == jsToLower (jsTrim obsIssuer)

/-- Hex-aware currency rule as §4.5 of the specification words it: a 40-hex
observed currency matches if its decoding equals the entry currency
case-insensitively or it equals the encoding of the entry currency
case-insensitively; otherwise plain case-insensitive equality. -/
def specCurrencyMatches (entryCurrency obsCurrency : String) : Bool :=
  if obsCurrency.length == 40 && obsCurrency.toList.all isHexDigit then
    jsToLower (hexToString obsCurrency) == jsToLower entryCurrency ||
      jsToLower obsCurrency == jsToLower (stringToHex entryCurrency)
  else jsToLower obsCurrency == jsToLower entryCurrency

/-- Ten whitelist entries whose issuer matches nothing in the asymmetry
counterexample; they pad the stored list to the default count so that the
load inside the matcher performs no merge. -/
def fillerTokens : List TokenConfig := List.replicate 10 ⟨"X", "x", none⟩

/-- Hex encoding of the 4-character currency code ABCD. -/
def hexABCD : String := "4142434400000000000000000000000000000000"

/-- Reference pair decoding used by the specification wording of `decode`:
consecutive byte pairs become characters, stopping at the first zero byte. -/
def cleanHexPairs : List Char → List Char
  | a :: b :: rest =>
    let v := 16 * hexDigitVal a + hexDigitVal b
    if v == 0 then [] else Char.ofNat v :: cleanHexPairs rest
  | _ => []

/-- The reference decoder exactly as claim C4 words it: inputs that are not
exactly 40 hex characters are returned unchanged; otherwise byte pairs are
decoded up to the first zero byte, trailing whitespace is trimmed, and an
empty result falls back to the original input. -/
def specDecode (s : String) : String :=
  if s.length == 40 && s.toList.all isHexDigit then
    let d := jsTrimEnd (String.mk (cleanHexPairs s.toList))
    if d.isEmpty then s else d
  else s

/-- The amended reference decoder: only the length-40 check guards the
passthrough, and the decoded result is trimmed on both ends. -/
def specDecodeAmended (s : String) : String :=
  if s.length == 40 && s.toList.all isHexDigit then
    let d := jsTrim (String.mk (cleanHexPairs s.toList))
    if d.isEmpty then s else d
  else s

/-- The two uppercase hex digits of a byte, as `stringToHex` renders one
character code (`toString(16).padStart(2, '0')`, uppercased). -/
def byteHexU (n : Nat) : List Char :=
  (jsPadStart (natToHexLower n) 2 '0').toList.map asciiUpperChar

/-- Uppercase hexadecimal digit. -/
def isUpperHexDigit (c : Char) : Bool :=
  (48 ≤ c.toNat && c.toNat ≤ 57) || (65 ≤ c.toNat && c.toNat ≤ 70)

deriving instance DecidableEq for Except

/-- Transport script that fails twice with a network error and then delivers
one NFT; used to exhibit the retry behaviour of the NFT fetch. -/
def nftRetryScript : Nat → RpcOutcome :=
  fun n =>
    if n < 2 then RpcOutcome.networkError
    else RpcOutcome.payload (some ⟨none, none, none, none, some [⟨0, "r", "id", 0, 0⟩]⟩)

theorem retry3_first_ok {σ ε α : Type} (fn : σ → Except ε α × σ) (d : Nat) (s s1 : σ) (a : α)
    (h : fn s = (Except.ok a, s1)) : retryWithBackoff fn 3 d s = (Except.ok a, s1, []) := by
  simp [retryWithBackoff, retryGo, h]

theorem retry3_second_ok {σ ε α : Type} (fn : σ → Except ε α × σ) (d : Nat)
    (s s1 s2 : σ) (e1 : ε) (a : α)
    (h1 : fn s = (Except.error e1, s1)) (h2 : fn s1 = (Except.ok a, s2)) :
    retryWithBackoff fn 3 d s = (Except.ok a, s2, [d * 1]) := by
  simp [retryWithBackoff, retryGo, h1, h2]

theorem retry3_third_ok {σ ε α : Type} (fn : σ → Except ε α × σ) (d : Nat)
    (s s1 s2 s3 : σ) (e1 e2 : ε) (a : α)
    (h1 : fn s = (Except.error e1, s1)) (h2 : fn s1 = (Except.error e2, s2))
    (h3 : fn s2 = (Except.ok a, s3)) :
    retryWithBackoff fn 3 d s = (Except.ok a, s3, [d * 1, d * 2]) := by
  simp [retryWithBackoff, retryGo, h1, h2, h3]

theorem retry3_all_fail {σ ε α : Type} (fn : σ → Except ε α × σ) (d : Nat)
    (s s1 s2 s3 : σ) (e1 e2 e3 : ε)
    (h1 : fn s = (Except.error e1, s1)) (h2 : fn s1 = (Except.error e2, s2))
    (h3 : fn s2 = (Except.error e3, s3)) :
    retryWithBackoff fn 3 d s = (Except.error (some e3), s3, [d * 1, d * 2]) := by
  simp [retryWithBackoff, retryGo, h1, h2, h3]

theorem makeXRPLRequest_fails (script : Nat → RpcOutcome) (account : String) (s : ClientState)
    (hv : validateXRPLAddress account = true) (hf : (script s.requestCount).fails = true) :
    ∃ e s1, makeXRPLRequest script account s = (Except.error e, s1) ∧
      s1.requestCount = s.requestCount + 1 := by
  cases h : script s.requestCount with
  | networkError =>
    exact ⟨XrplError.networkError (XRPL_SERVERS.getD s.serverIndex ""),
      ⟨s.serverIndex, s.requestCount + 1⟩, by simp [makeXRPLRequest, hv, h, List.getD], rfl⟩
  | httpError status =>
    by_cases hidx : s.serverIndex < XRPL_SERVERS.length - 1
    · exact ⟨XrplError.serverError status, ⟨s.serverIndex + 1, s.requestCount + 1⟩,
        by simp [makeXRPLRequest, hv, h, hidx], rfl⟩
    · exact ⟨XrplError.serverError status, ⟨s.serverIndex, s.requestCount + 1⟩,
        by simp [makeXRPLRequest, hv, h, hidx], rfl⟩
  | payload op =>
    cases op with
    | none =>
      exact ⟨XrplError.malformedResponse, ⟨s.serverIndex, s.requestCount + 1⟩,
        by simp [makeXRPLRequest, hv, h], rfl⟩
    | some p =>
      rw [h] at hf
      simp only [RpcOutcome.fails] at hf
      exact ⟨XrplError.apiError (jsOrString p.error_message p.error),
        ⟨s.serverIndex, s.requestCount + 1⟩, by simp [makeXRPLRequest, hv, h, hf], rfl⟩

theorem makeXRPLRequest_ok (script : Nat → RpcOutcome) (account : String) (s : ClientState)
    (p : RpcPayload) (hv : validateXRPLAddress account = true)
    (hp : script s.requestCount = RpcOutcome.payload (some p)) (he : jsTruthy p.error = false) :
    makeXRPLRequest script account s = (Except.ok p, ⟨s.serverIndex, s.requestCount + 1⟩) := by
  simp [makeXRPLRequest, hv, hp, he]

/-- C7: a string failing address validation makes each of the three fetch
operations fail with the invalid-address error while issuing no network
request (`requestCount` untouched), no failover (`serverIndex` untouched,
the state is returned unchanged) and no retry wait (no recorded delays); in
particular `fetchAccountNFTs` raises the error instead of returning `[]`. -/
theorem invalid_address_short_circuits (script : Nat → RpcOutcome) (account : String)
    (s : ClientState) (h : validateXRPLAddress account = false) :
    fetchAccountInfo script account s = (Except.error (XrplError.invalidAddress account), s, []) ∧
    fetchAccountLines script account s = (Except.error (XrplError.invalidAddress account), s, []) ∧
    fetchAccountNFTs script account s = (Except.error (XrplError.invalidAddress account), s, []) := by
  refine ⟨?_, ?_, ?_⟩ <;> simp [fetchAccountInfo, fetchAccountLines, fetchAccountNFTs, h]

/-- Witness for C7 at the concrete invalid address from the specification
scenarios. -/
theorem invalid_address_short_circuits_witness :
    validateXRPLAddress "abc" = false ∧
    fetchAccountNFTs (fun _ => RpcOutcome.networkError) "abc" ⟨0, 0⟩ =
      (Except.error (XrplError.invalidAddress "abc"), ⟨0, 0⟩, []) :=
  ⟨by decide,
    (invalid_address_short_circuits (fun _ => RpcOutcome.networkError) "abc" ⟨0, 0⟩
      (by decide)).2.2⟩

/-- C6: for a syntactically valid address, whenever all three transport
attempts of the underlying NFT request fail (in any of the classified ways:
thrown network error, non-2xx status, missing `result`, API-level error
payload), `fetchAccountNFTs` swallows the failure and returns the empty
list rather than propagating an error. -/
theorem nft_failure_returns_empty (script : Nat → RpcOutcome) (account : String)
    (s : ClientState) (hv : validateXRPLAddress account = true)
    (hf : ∀ i, i < 3 → (script (s.requestCount + i)).fails = true) :
    (fetchAccountNFTs script account s).1 = Except.ok [] := by
  obtain ⟨e1, s1, h1, hr1⟩ :=
    makeXRPLRequest_fails script account s hv (by simpa using hf 0 (by omega))
  obtain ⟨e2, s2, h2, hr2⟩ :=
    makeXRPLRequest_fails script account s1 hv (by rw [hr1]; exact hf 1 (by omega))
  obtain ⟨e3, s3, h3, hr3⟩ :=
    makeXRPLRequest_fails script account s2 hv (by
      rw [hr2, hr1]
      exact hf 2 (by omega))
  have hr := retry3_all_fail (makeXRPLRequest script account) 1000 s s1 s2 s3 e1 e2 e3 h1 h2 h3
  simp [fetchAccountNFTs, hv, hr]

/-- Witness for C6: a valid address whose NFT request hits a network error on
all three attempts. -/
theorem nft_failure_returns_empty_witness :
    validateXRPLAddress "rdRvw4pKmEtSnz3cjXBL6HLJJmejtkoQ4" = true ∧
    (∀ i, i < 3 →
      ((fun _ => RpcOutcome.networkError) ((⟨0, 0⟩ : ClientState).requestCount + i)).fails = true) ∧
    (fetchAccountNFTs (fun _ => RpcOutcome.networkError)
      "rdRvw4pKmEtSnz3cjXBL6HLJJmejtkoQ4" ⟨0, 0⟩).1 = Except.ok [] :=
  ⟨by decide, by decide,
    nft_failure_returns_empty (fun _ => RpcOutcome.networkError)
      "rdRvw4pKmEtSnz3cjXBL6HLJJmejtkoQ4" ⟨0, 0⟩ (by decide) (by decide)⟩

/-- Counterexample to C3 as stated: the claim excludes NFT fetches from the
retry policy, but on a script that fails twice and succeeds on the third
attempt, `fetchAccountNFTs` returns the third-attempt result after making 3
transport requests (`requestCount` 0 to 3) and waiting the backoff delays
1000 and 2000 — i.e. the retry policy does apply to NFT fetches.  Were NFTs
unretried, the single failure would have been swallowed into
`(Except.ok [], requestCount 1, no delays)`. -/
theorem retry_applies_to_nft_fetch :
    fetchAccountNFTs nftRetryScript "rdRvw4pKmEtSnz3cjXBL6HLJJmejtkoQ4" ⟨0, 0⟩ =
      (Except.ok [⟨0, "r", "id", 0, 0⟩], ⟨0, 3⟩, [1000, 2000]) := by decide

/-- C3 (amended): the retry policy — at most 3 attempts, waits of
`1000 * 2 ^ (k-1)` before retry `k`, the last error re-raised after the
final failure, and a fail-fail-success run returning the success with no
error — applies to account-info, trust-line and NFT fetches alike.  The
first four conjuncts characterize `retryWithBackoff` at the fixed budget on
every behaviour of the wrapped call; the last three instantiate the
fail-fail-success scenario for the three fetch operations. -/
theorem retry_policy_all_fetches (σ ε α : Type) (fn1 fn2 fn3 fn4 : σ → Except ε α × σ)
    (sa sb sc sd se sf sg sh si sj sk sl sm : σ)
    (a1 a2 a3 : α) (e21 e31 e32 e41 e42 e43 : ε)
    (h1 : fn1 sa = (Except.ok a1, sb))
    (h2a : fn2 sc = (Except.error e21, sd)) (h2b : fn2 sd = (Except.ok a2, se))
    (h3a : fn3 sf = (Except.error e31, sg)) (h3b : fn3 sg = (Except.error e32, sh))
    (h3c : fn3 sh = (Except.ok a3, si))
    (h4a : fn4 sj = (Except.error e41, sk)) (h4b : fn4 sk = (Except.error e42, sl))
    (h4c : fn4 sl = (Except.error e43, sm))
    (script : Nat → RpcOutcome) (account : String) (scl : ClientState)
    (p : RpcPayload) (ad : AccountInfo)
    (hv : validateXRPLAddress account = true)
    (hf0 : (script scl.requestCount).fails = true)
    (hf1 : (script (scl.requestCount + 1)).fails = true)
    (hp : script (scl.requestCount + 2) = RpcOutcome.payload (some p))
    (hpe : jsTruthy p.error = false)
    (had : p.account_data = some ad) :
    retryWithBackoff fn1 3 1000 sa = (Except.ok a1, sb, []) ∧
    retryWithBackoff fn2 3 1000 sc = (Except.ok a2, se, [1000]) ∧
    retryWithBackoff fn3 3 1000 sf = (Except.ok a3, si, [1000, 2000]) ∧
    retryWithBackoff fn4 3 1000 sj = (Except.error (some e43), sm, [1000, 2000]) ∧
    (∃ s9, fetchAccountInfo script account scl = (Except.ok ad, s9, [1000, 2000]) ∧
      s9.requestCount = scl.requestCount + 3) ∧
    (∃ s9, fetchAccountLines script account scl =
        (Except.ok (p.lines.getD []), s9, [1000, 2000]) ∧
      s9.requestCount = scl.requestCount + 3) ∧
    (∃ s9, fetchAccountNFTs script account scl =
        (Except.ok (p.account_nfts.getD []), s9, [1000, 2000]) ∧
      s9.requestCount = scl.requestCount + 3) := by
  obtain ⟨e1, t1, g1, gr1⟩ := makeXRPLRequest_fails script account scl hv (by simpa using hf0)
  obtain ⟨e2, t2, g2, gr2⟩ :=
    makeXRPLRequest_fails script account t1 hv (by rw [gr1]; exact hf1)
  have g3 : makeXRPLRequest script account t2 =
      (Except.ok p, ⟨t2.serverIndex, t2.requestCount + 1⟩) :=
    makeXRPLRequest_ok script account t2 p hv (by rw [gr2, gr1]; exact hp) hpe
  have hret := retry3_third_ok (makeXRPLRequest script account) 1000 scl t1 t2
    ⟨t2.serverIndex, t2.requestCount + 1⟩ e1 e2 p g1 g2 g3
  refine ⟨by simpa using retry3_first_ok fn1 1000 sa sb a1 h1,
    by simpa using retry3_second_ok fn2 1000 sc sd se e21 a2 h2a h2b,
    by simpa using retry3_third_ok fn3 1000 sf sg sh si e31 e32 a3 h3a h3b h3c,
    by simpa using retry3_all_fail fn4 1000 sj sk sl sm e41 e42 e43 h4a h4b h4c,
    ⟨⟨t2.serverIndex, t2.requestCount + 1⟩, ?_, by show t2.requestCount + 1 = _; omega⟩,
    ⟨⟨t2.serverIndex, t2.requestCount + 1⟩, ?_, by show t2.requestCount + 1 = _; omega⟩,
    ⟨⟨t2.serverIndex, t2.requestCount + 1⟩, ?_, by show t2.requestCount + 1 = _; omega⟩⟩
  · simp [fetchAccountInfo, hv, hret, had]
  · simp [fetchAccountLines, hv, hret]
  · simp [fetchAccountNFTs, hv, hret]

theorem keyEq_iff (t u : TokenConfig) : keyEq t u = true ↔ keyOf t = keyOf u := by
  simp [keyEq, keyOf, Prod.ext_iff]

theorem foldl_mergeStep_eq (ds : List TokenConfig) :
    ∀ acc, nodupKeysB ds = true →
      ds.foldl mergeStep acc = acc ++ ds.filter (fun d => !acc.any (fun t => keyEq t d)) := by
  induction ds with
  | nil => intro acc _; simp
  | cons d rest ih =>
    intro acc hnd
    simp only [nodupKeysB, Bool.and_eq_true, Bool.not_eq_true'] at hnd
    simp only [List.foldl_cons, List.filter_cons]
    by_cases hmem : acc.any (fun t => keyEq t d) = true
    · rw [show mergeStep acc d = acc from by simp [mergeStep, hmem], ih acc hnd.2]
      simp [hmem]
    · rw [show mergeStep acc d = acc ++ [d] from by simp [mergeStep, hmem],
        ih (acc ++ [d]) hnd.2]
      have hfil : rest.filter (fun x => !(acc ++ [d]).any (fun t => keyEq t x)) =
          rest.filter (fun x => !acc.any (fun t => keyEq t x)) := by
        apply List.filter_congr
        intro x hx
        have hdx : keyEq d x = false := List.any_eq_false.mp hnd.1 x hx |> Bool.eq_false_iff.mpr
        simp [List.any_append, hdx]
      rw [hfil]
      simp [hmem]

/-- C2 (confirmed): for a stored whitelist strictly smaller than the default
list, `loadTokenConfig` returns the stored entries unchanged and in order,
followed by exactly those default entries whose exact (currency, issuer) key
is absent from the stored entries; the merged list is re-persisted, and its
size is at least the default count. -/
theorem load_merges_missing_defaults (l : List TokenConfig)
    (h : l.length < DEFAULT_TOKENS.length) :
    loadTokenConfig ⟨some l⟩ =
      (l ++ DEFAULT_TOKENS.filter (fun d => !l.any (fun t => keyEq t d)),
        ⟨some (l ++ DEFAULT_TOKENS.filter (fun d => !l.any (fun t => keyEq t d)))⟩) ∧
    DEFAULT_TOKENS.length ≤
      (l ++ DEFAULT_TOKENS.filter (fun d => !l.any (fun t => keyEq t d))).length := by
  have hmerge := foldl_mergeStep_eq DEFAULT_TOKENS l (by decide)
  constructor
  · simp only [loadTokenConfig, h, if_pos, saveTokenConfig, hmerge]
  · have hkeys : (DEFAULT_TOKENS.map keyOf).Nodup := by decide
    have hsub : DEFAULT_TOKENS.map keyOf ⊆
        (l ++ DEFAULT_TOKENS.filter (fun d => !l.any (fun t => keyEq t d))).map keyOf := by
      intro k hk
      obtain ⟨d, hd, rfl⟩ := List.mem_map.mp hk
      by_cases hin : l.any (fun t => keyEq t d) = true
      · obtain ⟨t, ht, hkt⟩ := List.any_eq_true.mp hin
        exact List.mem_map.mpr ⟨t, List.mem_append_left _ ht, (keyEq_iff t d).mp hkt⟩
      · have hmem : d ∈ DEFAULT_TOKENS.filter (fun d => !l.any (fun t => keyEq t d)) :=
          List.mem_filter.mpr ⟨hd, by simp [Bool.eq_false_iff.mpr hin]⟩
        exact List.mem_map.mpr ⟨d, List.mem_append_right _ hmem, rfl⟩
    have hlen := (hkeys.subperm hsub).length_le
    simpa using hlen

/-- Witness for C2 on the empty stored list: the merge re-seeds all eleven
defaults. -/
theorem load_merges_missing_defaults_witness :
    ([] : List TokenConfig).length < DEFAULT_TOKENS.length ∧
    (loadTokenConfig ⟨some []⟩ =
      ([] ++ DEFAULT_TOKENS.filter (fun d => !([] : List TokenConfig).any (fun t => keyEq t d)),
        ⟨some ([] ++ DEFAULT_TOKENS.filter
          (fun d => !([] : List TokenConfig).any (fun t => keyEq t d)))⟩) ∧
     DEFAULT_TOKENS.length ≤
      ([] ++ DEFAULT_TOKENS.filter
        (fun d => !([] : List TokenConfig).any (fun t => keyEq t d))).length) :=
  ⟨by decide, load_merges_missing_defaults [] (by decide)⟩

theorem loadTokenConfig_id (l : List TokenConfig) (h : DEFAULT_TOKENS.length ≤ l.length) :
    loadTokenConfig ⟨some l⟩ = (l, ⟨some l⟩) := by
  simp [loadTokenConfig, Nat.not_lt.mpr h]

/-- Counterexample to C8 as stated: with a single default entry stored, adding
that same entry again fails with `DuplicateToken` as claimed, but the stored
state does not stay unchanged — the load embedded in `addToken` forward-merges
the missing ten defaults and persists an 11-entry list before the duplicate
check throws. -/
theorem addToken_duplicate_merge_side_effect :
    (addToken ⟨"GreedyJEW", "rdRvw4pKmEtSnz3cjXBL6HLJJmejtkoQ4", some "GreedyJEW Token"⟩
        ⟨some [⟨"GreedyJEW", "rdRvw4pKmEtSnz3cjXBL6HLJJmejtkoQ4", some "GreedyJEW Token"⟩]⟩).1 =
      Except.error StoreError.duplicateToken ∧
    (addToken ⟨"GreedyJEW", "rdRvw4pKmEtSnz3cjXBL6HLJJmejtkoQ4", some "GreedyJEW Token"⟩
        ⟨some [⟨"GreedyJEW", "rdRvw4pKmEtSnz3cjXBL6HLJJmejtkoQ4", some "GreedyJEW Token"⟩]⟩).2 ≠
      ⟨some [⟨"GreedyJEW", "rdRvw4pKmEtSnz3cjXBL6HLJJmejtkoQ4", some "GreedyJEW Token"⟩]⟩ := by
  decide

/-- C8 (amended): provided the stored list already has at least the default
count of entries (so the load embedded in each mutation performs no forward
merge; otherwise that merge is still persisted by a failing call), whitelist
mutations are atomic on error and position-preserving on success: adding a
token with a well-formed issuer whose exact key already exists fails with
`DuplicateToken` leaving the stored state unchanged; updating with an old key
matching no entry fails with `NotFound` leaving the stored state unchanged;
updating to a new key colliding with a different entry fails with
`DuplicateToken` leaving the stored state unchanged; a successful update
replaces the matched entry in place, preserving its position. -/
theorem store_mutations_atomic (la lb lc ld : List TokenConfig)
    (tok newb newc newd : TokenConfig)
    (oldCb oldIb oldCc oldIc oldCd oldId : String) (ic idx : Nat)
    (ha1 : DEFAULT_TOKENS.length ≤ la.length)
    (ha2 : validateXRPLAddress tok.issuer = true)
    (ha3 : la.any (fun t => keyEq t tok) = true)
    (hb1 : DEFAULT_TOKENS.length ≤ lb.length)
    (hb2 : validateXRPLAddress newb.issuer = true)
    (hb3 : jsFindIndex (fun t => t.currency == oldCb && t.issuer == oldIb) lb = none)
    (hc1 : DEFAULT_TOKENS.length ≤ lc.length)
    (hc2 : validateXRPLAddress newc.issuer = true)
    (hc3 : jsFindIndex (fun t => t.currency == oldCc && t.issuer == oldIc) lc = some ic)
    (hc4 : anyIdx (fun i t => !(i == ic) && keyEq t newc) 0 lc = true)
    (hd1 : DEFAULT_TOKENS.length ≤ ld.length)
    (hd2 : validateXRPLAddress newd.issuer = true)
    (hd3 : jsFindIndex (fun t => t.currency == oldCd && t.issuer == oldId) ld = some idx)
    (hd4 : anyIdx (fun i t => !(i == idx) && keyEq t newd) 0 ld = false) :
    addToken tok ⟨some la⟩ = (Except.error StoreError.duplicateToken, ⟨some la⟩) ∧
    updateToken oldCb oldIb newb ⟨some lb⟩ = (Except.error StoreError.notFound, ⟨some lb⟩) ∧
    updateToken oldCc oldIc newc ⟨some lc⟩ =
      (Except.error StoreError.duplicateToken, ⟨some lc⟩) ∧
    updateToken oldCd oldId newd ⟨some ld⟩ = (Except.ok (), ⟨some (ld.set idx newd)⟩) := by
  refine ⟨?_, ?_, ?_, ?_⟩
  · simp [addToken, loadTokenConfig_id la ha1, ha2, ha3]
  · simp [updateToken, loadTokenConfig_id lb hb1, hb2, hb3]
  · simp [updateToken, loadTokenConfig_id lc hc1, hc2, hc3, hc4]
  · simp [updateToken, loadTokenConfig_id ld hd1, hd2, hd3, hd4, saveTokenConfig]

/-- Witness for C8 on stores holding the full default list. -/
theorem store_mutations_atomic_witness :
    addToken ⟨"GreedyJEW", "rdRvw4pKmEtSnz3cjXBL6HLJJmejtkoQ4", none⟩ ⟨some DEFAULT_TOKENS⟩ =
      (Except.error StoreError.duplicateToken, ⟨some DEFAULT_TOKENS⟩) ∧
    updateToken "ZZZ" "Z" ⟨"NEW", "rdRvw4pKmEtSnz3cjXBL6HLJJmejtkoQ4", none⟩
        ⟨some DEFAULT_TOKENS⟩ =
      (Except.error StoreError.notFound, ⟨some DEFAULT_TOKENS⟩) ∧
    updateToken "GreedyJEW" "rdRvw4pKmEtSnz3cjXBL6HLJJmejtkoQ4"
        ⟨"JewNomicaN", "rEz5RdLqRex7YxYZ1bEskCDHbvKy3zcUnq", none⟩ ⟨some DEFAULT_TOKENS⟩ =
      (Except.error StoreError.duplicateToken, ⟨some DEFAULT_TOKENS⟩) ∧
    updateToken "GreedyJEW" "rdRvw4pKmEtSnz3cjXBL6HLJJmejtkoQ4"
        ⟨"NEWX", "rdRvw4pKmEtSnz3cjXBL6HLJJmejtkoQ4", none⟩ ⟨some DEFAULT_TOKENS⟩ =
      (Except.ok (),
        ⟨some (DEFAULT_TOKENS.set 0 ⟨"NEWX", "rdRvw4pKmEtSnz3cjXBL6HLJJmejtkoQ4", none⟩)⟩) :=
  store_mutations_atomic DEFAULT_TOKENS DEFAULT_TOKENS DEFAULT_TOKENS DEFAULT_TOKENS
    ⟨"GreedyJEW", "rdRvw4pKmEtSnz3cjXBL6HLJJmejtkoQ4", none⟩
    ⟨"NEW", "rdRvw4pKmEtSnz3cjXBL6HLJJmejtkoQ4", none⟩
    ⟨"JewNomicaN", "rEz5RdLqRex7YxYZ1bEskCDHbvKy3zcUnq", none⟩
    ⟨"NEWX", "rdRvw4pKmEtSnz3cjXBL6HLJJmejtkoQ4", none⟩
    "ZZZ" "Z" "GreedyJEW" "rdRvw4pKmEtSnz3cjXBL6HLJJmejtkoQ4"
    "GreedyJEW" "rdRvw4pKmEtSnz3cjXBL6HLJJmejtkoQ4" 0 0
    (by decide) (by decide) (by decide) (by decide) (by decide) (by decide)
    (by decide) (by decide) (by decide) (by decide) (by decide) (by decide)
    (by decide) (by decide)

theorem keyEq_comm (a b : TokenConfig) : keyEq a b = keyEq b a := by
  by_cases h : keyOf a = keyOf b
  · rw [(keyEq_iff a b).mpr h, (keyEq_iff b a).mpr h.symm]
  · rw [Bool.eq_false_iff.mpr (fun hc => h ((keyEq_iff a b).mp hc)),
      Bool.eq_false_iff.mpr (fun hc => h ((keyEq_iff b a).mp hc).symm)]

theorem nodupKeysB_append_singleton (l : List TokenConfig) (d : TokenConfig)
    (h : nodupKeysB l = true) (hd : l.any (fun t => keyEq t d) = false) :
    nodupKeysB (l ++ [d]) = true := by
  induction l with
  | nil => simp [nodupKeysB]
  | cons t r ih =>
    simp only [nodupKeysB, Bool.and_eq_true, Bool.not_eq_true'] at h
    simp only [List.any_cons, Bool.or_eq_false_iff] at hd
    simp only [List.cons_append, nodupKeysB, Bool.and_eq_true, Bool.not_eq_true']
    refine ⟨?_, ih h.2 hd.2⟩
    simp [List.any_append, h.1, hd.1]

theorem nodupKeysB_foldl_mergeStep (ds : List TokenConfig) :
    ∀ acc, nodupKeysB acc = true → nodupKeysB (ds.foldl mergeStep acc) = true := by
  induction ds with
  | nil => intro acc h; simpa using h
  | cons d rest ih =>
    intro acc h
    simp only [List.foldl_cons]
    apply ih
    by_cases hmem : acc.any (fun t => keyEq t d) = true
    · simpa [mergeStep, hmem] using h
    · rw [show mergeStep acc d = acc ++ [d] from by simp [mergeStep, hmem]]
      exact nodupKeysB_append_singleton acc d h (Bool.eq_false_iff.mpr hmem)

theorem loadTokenConfig_nodup (st : StorageState) (h : nodupStoreB st = true) :
    nodupKeysB (loadTokenConfig st).1 = true ∧
      (loadTokenConfig st).2 = ⟨some (loadTokenConfig st).1⟩ := by
  obtain ⟨o⟩ := st
  cases o with
  | none => exact ⟨by decide, rfl⟩
  | some l =>
    simp only [nodupStoreB] at h
    by_cases hlen : l.length < DEFAULT_TOKENS.length
    · constructor
      · simp only [loadTokenConfig, hlen, if_pos]
        exact nodupKeysB_foldl_mergeStep DEFAULT_TOKENS l h
      · simp [loadTokenConfig, hlen, saveTokenConfig]
    · constructor
      · simpa [loadTokenConfig, hlen] using h
      · simp [loadTokenConfig, hlen]

theorem any_filter_false (l : List TokenConfig) (p q : TokenConfig → Bool)
    (h : l.any q = false) : (l.filter p).any q = false := by
  rw [List.any_eq_false] at h ⊢
  intro x hx
  exact h x (List.mem_of_mem_filter hx)

theorem nodupKeysB_filter (p : TokenConfig → Bool) (l : List TokenConfig)
    (h : nodupKeysB l = true) : nodupKeysB (l.filter p) = true := by
  induction l with
  | nil => simpa using h
  | cons t r ih =>
    simp only [nodupKeysB, Bool.and_eq_true, Bool.not_eq_true'] at h
    by_cases hp : p t = true
    · rw [List.filter_cons_of_pos hp]
      simp only [nodupKeysB, Bool.and_eq_true, Bool.not_eq_true']
      exact ⟨any_filter_false r p _ h.1, ih h.2⟩
    · rw [List.filter_cons_of_neg (by simpa using hp)]
      exact ih h.2

theorem anyIdx_eq_false (p : Nat → TokenConfig → Bool) :
    ∀ (l : List TokenConfig) (k : Nat), anyIdx p k l = false →
      ∀ j (hj : j < l.length), p (k + j) (l.get ⟨j, hj⟩) = false := by
  intro l
  induction l with
  | nil => intro k _ j hj; simp at hj
  | cons t r ih =>
    intro k h j hj
    simp only [anyIdx, Bool.or_eq_false_iff] at h
    cases j with
    | zero => simpa using h.1
    | succ j =>
      have := ih (k + 1) h.2 j (Nat.lt_of_succ_lt_succ hj)
      have harith : k + 1 + j = k + (j + 1) := by omega
      rw [harith] at this
      exact this

theorem nodupKeysB_set : ∀ (l : List TokenConfig) (i : Nat) (x : TokenConfig),
    nodupKeysB l = true →
    (∀ j (hj : j < l.length), j ≠ i → keyEq (l.get ⟨j, hj⟩) x = false) →
    nodupKeysB (l.set i x) = true := by
  intro l
  induction l with
  | nil => intro i x _ _; rfl
  | cons t r ih =>
    intro i x h hx
    simp only [nodupKeysB, Bool.and_eq_true, Bool.not_eq_true'] at h
    cases i with
    | zero =>
      simp only [List.set_cons_zero, nodupKeysB, Bool.and_eq_true, Bool.not_eq_true']
      refine ⟨?_, h.2⟩
      rw [List.any_eq_false]
      intro u hu
      obtain ⟨⟨j, hj⟩, hget⟩ := List.mem_iff_get.mp hu
      have hfalse := hx (j + 1) (Nat.succ_lt_succ hj) (Nat.succ_ne_zero j)
      rw [show ((t :: r).get ⟨j + 1, Nat.succ_lt_succ hj⟩) = r.get ⟨j, hj⟩ from rfl,
        hget] at hfalse
      rw [keyEq_comm] at hfalse
      simp [hfalse]
    | succ k =>
      simp only [List.set_cons_succ, nodupKeysB, Bool.and_eq_true, Bool.not_eq_true']
      refine ⟨?_, ih k x h.2 ?_⟩
      · rw [List.any_eq_false]
        intro u hu
        rcases List.mem_or_eq_of_mem_set hu with h1 | h1
        · have := List.any_eq_false.mp h.1 u h1
          simpa using this
        · subst h1
          have := hx 0 (Nat.succ_pos _) (by omega)
          simpa using this
      · intro j hj hjk
        have := hx (j + 1) (Nat.succ_lt_succ hj) (by omega)
        simpa using this

/-- C9 (confirmed): the no-duplicate-key invariant holds for the canonical
default list — whose every entry also carries all three fields (a `customName`
is present) with an issuer passing address validation — and is preserved by
`loadTokenConfig` (including its forward merge), `addToken`, `removeToken`
and `updateToken`, on every store satisfying the invariant. -/
theorem whitelist_key_invariant (stl sta str stu : StorageState) (tok : TokenConfig)
    (c i oldC oldI : String) (newT : TokenConfig)
    (hl : nodupStoreB stl = true) (ha : nodupStoreB sta = true)
    (hr : nodupStoreB str = true) (hu : nodupStoreB stu = true) :
    (nodupKeysB DEFAULT_TOKENS = true ∧
      DEFAULT_TOKENS.all (fun d => validateXRPLAddress d.issuer && d.customName.isSome) = true) ∧
    nodupStoreB (loadTokenConfig stl).2 = true ∧
    nodupStoreB (addToken tok sta).2 = true ∧
    nodupStoreB (removeToken c i str) = true ∧
    nodupStoreB (updateToken oldC oldI newT stu).2 = true := by
  refine ⟨⟨by decide, by decide⟩, ?_, ?_, ?_, ?_⟩
  · obtain ⟨hn, hst⟩ := loadTokenConfig_nodup stl hl
    rw [hst]
    simpa [nodupStoreB] using hn
  · obtain ⟨hn, hst⟩ := loadTokenConfig_nodup sta ha
    by_cases hv : validateXRPLAddress tok.issuer = true
    · by_cases hdup : (loadTokenConfig sta).1.any (fun t => keyEq t tok) = true
      · rw [show (addToken tok sta).2 = (loadTokenConfig sta).2 from by
          simp [addToken, hv, hdup]]
        rw [hst]
        simpa [nodupStoreB] using hn
      · rw [show (addToken tok sta).2 =
            ⟨some ((loadTokenConfig sta).1 ++ [tok])⟩ from by
          simp [addToken, hv, hdup, saveTokenConfig]]
        simpa [nodupStoreB] using
          nodupKeysB_append_singleton _ tok hn (Bool.eq_false_iff.mpr hdup)
    · rw [show (addToken tok sta).2 = (loadTokenConfig sta).2 from by
        simp [addToken, hv]]
      rw [hst]
      simpa [nodupStoreB] using hn
  · obtain ⟨hn, _⟩ := loadTokenConfig_nodup str hr
    rw [show removeToken c i str =
        ⟨some ((loadTokenConfig str).1.filter
          (fun t => !(t.currency == c && t.issuer == i)))⟩ from by
      simp [removeToken, saveTokenConfig]]
    simpa [nodupStoreB] using nodupKeysB_filter _ _ hn
  · obtain ⟨hn, hst⟩ := loadTokenConfig_nodup stu hu
    by_cases hv : validateXRPLAddress newT.issuer = true
    · cases hidx : jsFindIndex (fun t => t.currency == oldC && t.issuer == oldI)
          (loadTokenConfig stu).1 with
      | none =>
        rw [show (updateToken oldC oldI newT stu).2 = (loadTokenConfig stu).2 from by
          simp [updateToken, hv, hidx]]
        rw [hst]
        simpa [nodupStoreB] using hn
      | some index =>
        by_cases hdup : anyIdx (fun i2 t => !(i2 == index) && keyEq t newT) 0
            (loadTokenConfig stu).1 = true
        · rw [show (updateToken oldC oldI newT stu).2 = (loadTokenConfig stu).2 from by
            simp [updateToken, hv, hidx, hdup]]
          rw [hst]
          simpa [nodupStoreB] using hn
        · rw [show (updateToken oldC oldI newT stu).2 =
              ⟨some ((loadTokenConfig stu).1.set index newT)⟩ from by
            simp [updateToken, hv, hidx, hdup, saveTokenConfig]]
          have hbridge := anyIdx_eq_false _ _ 0 (Bool.eq_false_iff.mpr hdup)
          have hcond : ∀ j (hj : j < (loadTokenConfig stu).1.length), j ≠ index →
              keyEq ((loadTokenConfig stu).1.get ⟨j, hj⟩) newT = false := by
            intro j hj hji
            have hb := hbridge j hj
            rw [Nat.zero_add] at hb
            simpa [hji] using hb
          simpa [nodupStoreB] using nodupKeysB_set _ index newT hn hcond
    · rw [show (updateToken oldC oldI newT stu).2 = stu from by simp [updateToken, hv]]
      exact hu

/-- Witness for C9 on stores holding the default list. -/
theorem whitelist_key_invariant_witness :
    nodupStoreB ⟨some DEFAULT_TOKENS⟩ = true ∧
    ((nodupKeysB DEFAULT_TOKENS = true ∧
      DEFAULT_TOKENS.all (fun d => validateXRPLAddress d.issuer && d.customName.isSome) = true) ∧
    nodupStoreB (loadTokenConfig ⟨some DEFAULT_TOKENS⟩).2 = true ∧
    nodupStoreB (addToken ⟨"NEWX", "rdRvw4pKmEtSnz3cjXBL6HLJJmejtkoQ4", none⟩
      ⟨some DEFAULT_TOKENS⟩).2 = true ∧
    nodupStoreB (removeToken "ASC" "r3qWgpz2ry3BhcRJ8JE6rxM8esrfhuKp4R"
      ⟨some DEFAULT_TOKENS⟩) = true ∧
    nodupStoreB (updateToken "MKS" "rwU8xXxSQPzqX7DEfeSUdUjb5NB17ixkzJ"
      ⟨"MKS2", "rwU8xXxSQPzqX7DEfeSUdUjb5NB17ixkzJ", some "MKS2"⟩
      ⟨some DEFAULT_TOKENS⟩).2 = true) :=
  ⟨by decide,
    whitelist_key_invariant ⟨some DEFAULT_TOKENS⟩ ⟨some DEFAULT_TOKENS⟩
      ⟨some DEFAULT_TOKENS⟩ ⟨some DEFAULT_TOKENS⟩
      ⟨"NEWX", "rdRvw4pKmEtSnz3cjXBL6HLJJmejtkoQ4", none⟩
      "ASC" "r3qWgpz2ry3BhcRJ8JE6rxM8esrfhuKp4R"
      "MKS" "rwU8xXxSQPzqX7DEfeSUdUjb5NB17ixkzJ"
      ⟨"MKS2", "rwU8xXxSQPzqX7DEfeSUdUjb5NB17ixkzJ", some "MKS2"⟩
      (by decide) (by decide) (by decide) (by decide)⟩

/-- Witness for the amended C3 theorem on concrete wrapped calls and the
concrete fail-fail-success transport script. -/
theorem retry_policy_all_fetches_witness :
    retryWithBackoff (fun s : Nat => ((Except.ok 7 : Except Nat Nat), s + 1)) 3 1000 0 =
      (Except.ok 7, 1, []) ∧
    retryWithBackoff (fun s : Nat =>
        if s == 0 then ((Except.error 1 : Except Nat Nat), 1) else (Except.ok 8, 2)) 3 1000 0 =
      (Except.ok 8, 2, [1000]) ∧
    retryWithBackoff (fun s : Nat =>
        if s < 2 then ((Except.error s : Except Nat Nat), s + 1) else (Except.ok 9, 3)) 3 1000 0 =
      (Except.ok 9, 3, [1000, 2000]) ∧
    retryWithBackoff (fun s : Nat => ((Except.error s : Except Nat Nat), s + 1)) 3 1000 0 =
      (Except.error (some 2), 3, [1000, 2000]) ∧
    (∃ s9, fetchAccountInfo retryScenarioScript "rdRvw4pKmEtSnz3cjXBL6HLJJmejtkoQ4" ⟨0, 0⟩ =
        (Except.ok ⟨"rdRvw4pKmEtSnz3cjXBL6HLJJmejtkoQ4", "1000", 0, 0, 1⟩, s9, [1000, 2000]) ∧
      s9.requestCount = (⟨0, 0⟩ : ClientState).requestCount + 3) ∧
    (∃ s9, fetchAccountLines retryScenarioScript "rdRvw4pKmEtSnz3cjXBL6HLJJmejtkoQ4" ⟨0, 0⟩ =
        (Except.ok (retryScenarioPayload.lines.getD []), s9, [1000, 2000]) ∧
      s9.requestCount = (⟨0, 0⟩ : ClientState).requestCount + 3) ∧
    (∃ s9, fetchAccountNFTs retryScenarioScript "rdRvw4pKmEtSnz3cjXBL6HLJJmejtkoQ4" ⟨0, 0⟩ =
        (Except.ok (retryScenarioPayload.account_nfts.getD []), s9, [1000, 2000]) ∧
      s9.requestCount = (⟨0, 0⟩ : ClientState).requestCount + 3) :=
  retry_policy_all_fetches Nat Nat Nat
    (fun s => (Except.ok 7, s + 1))
    (fun s => if s == 0 then (Except.error 1, 1) else (Except.ok 8, 2))
    (fun s => if s < 2 then (Except.error s, s + 1) else (Except.ok 9, 3))
    (fun s => (Except.error s, s + 1))
    0 1 0 1 2 0 1 2 3 0 1 2 3
    7 8 9 1 0 1 0 1 2
    (by decide) (by decide) (by decide) (by decide) (by decide) (by decide)
    (by decide) (by decide) (by decide)
    retryScenarioScript "rdRvw4pKmEtSnz3cjXBL6HLJJmejtkoQ4" ⟨0, 0⟩ retryScenarioPayload
    ⟨"rdRvw4pKmEtSnz3cjXBL6HLJJmejtkoQ4", "1000", 0, 0, 1⟩
    (by decide) (by decide) (by decide) (by decide) (by decide) (by decide)

theorem char_toNat_ofNat (n : Nat) (h : n < 55296) : (Char.ofNat n).toNat = n := by
  have hv : n.isValidChar := Or.inl h
  simp only [Char.ofNat, dif_pos hv]
  rfl

theorem jsIsWhitespace_letters (c : Char) (h1 : 33 ≤ c.toNat) (h2 : c.toNat ≤ 126) :
    jsIsWhitespace c = false := by
  simp only [jsIsWhitespace, Bool.or_eq_false_iff, beq_eq_false_iff_ne, ne_eq,
    Bool.and_eq_false_iff, decide_eq_false_iff_not, not_le]
  omega

theorem jsIsWhitespace_asciiLower (c : Char) :
    jsIsWhitespace (asciiLowerChar c) = jsIsWhitespace c := by
  unfold asciiLowerChar
  by_cases h : (65 ≤ c.toNat && c.toNat ≤ 90) = true
  · simp only [h, if_true]
    simp only [Bool.and_eq_true, decide_eq_true_eq] at h
    have hup := jsIsWhitespace_letters c (by omega) (by omega)
    have hlow : jsIsWhitespace (Char.ofNat (c.toNat + 32)) = false := by
      apply jsIsWhitespace_letters <;> rw [char_toNat_ofNat (c.toNat + 32) (by omega)] <;> omega
    rw [hup, hlow]
  · simp [h]

theorem jsTrim_jsToLower (s : String) : jsTrim (jsToLower s) = jsToLower (jsTrim s) := by
  have hcomp : (jsIsWhitespace ∘ asciiLowerChar) = jsIsWhitespace := by
    funext c
    exact jsIsWhitespace_asciiLower c
  unfold jsTrim jsToLower
  have hml : ∀ l : List Char, (String.mk l).toList = l := fun _ => rfl
  rw [hml, hml]
  rw [List.dropWhile_map, hcomp, ← List.map_reverse, List.dropWhile_map, hcomp,
    ← List.map_reverse]
  rfl

/-- C1 (amended): `isTokenWhitelisted` returns true iff some entry of the
loaded whitelist has an issuer equal to the observed issuer after trimming
and lowercasing both, and a currency matching under the hex-aware rule: a
40-hex observed currency matches when its decoding case-insensitively equals
the entry currency or it case-insensitively equals the encoding of the entry
currency, a non-hex observed currency requires case-insensitive equality.
The hex branch applies the codec in both directions (decode the observed or
encode the entry currency), but matching is not symmetric under swapping
which of the two currencies is the hex-encoded one. -/
theorem isTokenWhitelisted_iff_spec (currency issuer : String) (st : StorageState) :
    (isTokenWhitelisted currency issuer st).1 =
      (loadTokenConfig st).1.any (fun t =>
        specIssuerMatches t.issuer issuer && specCurrencyMatches t.currency currency) := by
  simp only [isTokenWhitelisted]
  congr 1
  funext t
  simp only [specIssuerMatches, specCurrencyMatches, ← jsTrim_jsToLower]
  by_cases h : (jsTrim (jsToLower t.issuer) == jsTrim (jsToLower issuer)) = true
  · simp [bne, h]
  · simp [bne, h]

/-- Counterexample to the symmetry conjunct of C1: with issuer-matching
stores of equal shape, the observed hex encoding of ABCD matches a plain
ABCD entry, but a plain observed ABCD does not match an entry storing the
hex encoding — swapping which side is hex-encoded flips the result. -/
theorem whitelist_hex_not_symmetric :
    (isTokenWhitelisted hexABCD "riss"
      ⟨some (fillerTokens ++ [⟨"ABCD", "riss", none⟩])⟩).1 = true ∧
    (isTokenWhitelisted "ABCD" "riss"
      ⟨some (fillerTokens ++ [⟨hexABCD, "riss", none⟩])⟩).1 = false := by
  decide

theorem char_beq_false_of_toNat_ne (c d : Char) (h : c.toNat ≠ d.toNat) : (c == d) = false := by
  apply beq_eq_false_iff_ne.mpr
  intro he
  exact h (he ▸ rfl)

theorem isHexDigit_ranges (c : Char) (h : isHexDigit c = true) :
    (48 ≤ c.toNat ∧ c.toNat ≤ 57) ∨ (97 ≤ c.toNat ∧ c.toNat ≤ 102) ∨
      (65 ≤ c.toNat ∧ c.toNat ≤ 70) := by
  have h2 : ((48 ≤ c.toNat ∧ c.toNat ≤ 57) ∨ (97 ≤ c.toNat ∧ c.toNat ≤ 102)) ∨
      (65 ≤ c.toNat ∧ c.toNat ≤ 70) := by
    simpa [isHexDigit, Bool.or_eq_true, Bool.and_eq_true, decide_eq_true_eq] using h
  tauto

theorem hexDigitVal_le (c : Char) : hexDigitVal c ≤ 15 := by
  unfold hexDigitVal
  split
  · rename_i h
    simp only [Bool.and_eq_true, decide_eq_true_eq] at h
    omega
  · split
    · rename_i h
      simp only [Bool.and_eq_true, decide_eq_true_eq] at h
      omega
    · split
      · rename_i h
        simp only [Bool.and_eq_true, decide_eq_true_eq] at h
        omega
      · omega

theorem jsParseIntHex_pair (a b : Char) (ha : isHexDigit a = true) (hb : isHexDigit b = true) :
    jsParseIntHex [a, b] = some (Int.ofNat (16 * hexDigitVal a + hexDigitVal b)) := by
  have hra := isHexDigit_ranges a ha
  have hrb := isHexDigit_ranges b hb
  have hwa : jsIsWhitespace a = false := jsIsWhitespace_letters a (by omega) (by omega)
  have hminus : (a == '-') = false :=
    char_beq_false_of_toNat_ne a '-' (by rw [show ('-').toNat = 45 from rfl]; omega)
  have hplus : (a == '+') = false :=
    char_beq_false_of_toNat_ne a '+' (by rw [show ('+').toNat = 43 from rfl]; omega)
  have hx : (b == 'x') = false :=
    char_beq_false_of_toNat_ne b 'x' (by rw [show ('x').toNat = 120 from rfl]; omega)
  have hX : (b == 'X') = false :=
    char_beq_false_of_toNat_ne b 'X' (by rw [show ('X').toNat = 88 from rfl]; omega)
  simp [jsParseIntHex, List.dropWhile_cons, hwa, hminus, hplus, hx, hX,
    List.takeWhile_cons, ha, hb]

theorem some_beq_some_int (x y : Int) : ((some x == some y) : Bool) = (x == y) := rfl

theorem decodeHexPairs_eq_clean : ∀ (l : List Char), l.all isHexDigit = true →
    l.length % 2 = 0 → decodeHexPairs l = cleanHexPairs l
  | [], _, _ => rfl
  | [a], _, h => by simp at h
  | a :: b :: rest, hall, heven => by
    simp only [List.all_cons, Bool.and_eq_true] at hall
    have hrest : rest.length % 2 = 0 := by
      simp only [List.length_cons] at heven
      omega
    have ih := decodeHexPairs_eq_clean rest hall.2.2 hrest
    have hv : 16 * hexDigitVal a + hexDigitVal b ≤ 255 := by
      have h1 := hexDigitVal_le a
      have h2 := hexDigitVal_le b
      omega
    simp only [decodeHexPairs, cleanHexPairs, jsParseIntHex_pair a b hall.1 hall.2.1,
      some_beq_some_int]
    by_cases h0 : 16 * hexDigitVal a + hexDigitVal b = 0
    · simp [h0]
    · have hbeq : (Int.ofNat (16 * hexDigitVal a + hexDigitVal b) == (0 : Int)) = false := by
        apply beq_eq_false_iff_ne.mpr
        intro he
        rw [Int.ofNat_eq_coe] at he
        exact h0 (by omega)
      have hno : ((16 * hexDigitVal a + hexDigitVal b : Nat) == (0 : Nat)) = false := by
        simpa using h0
      simp only [hbeq, hno, Bool.false_eq_true, if_neg, if_false, ih]
      congr 1
      simp only [jsFromCharCode, Int.ofNat_eq_coe]
      congr 1
      omega

/-- C4 (amended): `hexToString` returns every input whose length differs from
40 unchanged, and on a 40-hex-character input it equals the reference
decoder: byte pairs to characters, stop at the first zero byte, trim
whitespace from both ends, and fall back to the original hex input when the
decoded-and-trimmed string is empty.  (A 40-character input that is not all
hex is decoded with JavaScript parseInt prefix semantics rather than
returned unchanged.) -/
theorem hexToString_spec (s1 s2 : String) (h1 : s1.length ≠ 40)
    (h2 : (s2.length == 40 && s2.toList.all isHexDigit) = true) :
    hexToString s1 = s1 ∧ hexToString s2 = specDecodeAmended s2 := by
  refine ⟨by simp [hexToString, h1], ?_⟩
  have h2' := h2
  simp only [Bool.and_eq_true, beq_iff_eq] at h2'
  have heven : s2.toList.length % 2 = 0 := by
    rw [show s2.toList.length = s2.length from rfl, h2'.1]
  rw [show hexToString s2 =
      (if (jsTrim (String.mk (decodeHexPairs s2.toList))).isEmpty then s2
       else jsTrim (String.mk (decodeHexPairs s2.toList))) from by
    simp [hexToString, h2'.1]]
  rw [show specDecodeAmended s2 =
      (if (jsTrim (String.mk (cleanHexPairs s2.toList))).isEmpty then s2
       else jsTrim (String.mk (cleanHexPairs s2.toList))) from by
    rw [specDecodeAmended, h2]
    rfl]
  rw [decodeHexPairs_eq_clean s2.toList h2'.2 heven]

/-- Counterexample to C4 as stated: its reference decoder returns a
40-character non-hex input unchanged and trims only trailing whitespace, but
the code decodes `Z`-pairs through parseInt (`NaN`, char code 0) to twenty
NUL characters, and trims the leading space of the decoding of
`2041424300...00` (space, `ABC`) to `ABC` where the reference keeps
`" ABC"`. -/
theorem hexToString_ne_claimed_reference :
    hexToString "ZZZZZZZZZZZZZZZZZZZZZZZZZZZZZZZZZZZZZZZZ" ≠
      specDecode "ZZZZZZZZZZZZZZZZZZZZZZZZZZZZZZZZZZZZZZZZ" ∧
    hexToString "2041424300000000000000000000000000000000" ≠
      specDecode "2041424300000000000000000000000000000000" := by decide

/-- Witness for C4 on a short plain code and the hex encoding of ABC. -/
theorem hexToString_spec_witness :
    "abc".length ≠ 40 ∧
    ("4142430000000000000000000000000000000000".length == 40 &&
      "4142430000000000000000000000000000000000".toList.all isHexDigit) = true ∧
    (hexToString "abc" = "abc" ∧
      hexToString "4142430000000000000000000000000000000000" =
        specDecodeAmended "4142430000000000000000000000000000000000") :=
  ⟨by decide, by decide,
    hexToString_spec "abc" "4142430000000000000000000000000000000000" (by decide) (by decide)⟩

set_option maxRecDepth 4096

theorem byteHexU_length : ∀ n, n < 256 → (byteHexU n).length = 2 := by decide

theorem byteHexU_upper : ∀ n, n < 256 → (byteHexU n).all isUpperHexDigit = true := by decide

theorem byteHexU_parse : ∀ n, n < 256 → jsParseIntHex (byteHexU n) = some (Int.ofNat n) := by
  decide

theorem jsPadEnd_toList (l : List Char) (n : Nat) (c : Char) (h : l.length ≤ n) :
    (jsPadEnd (String.mk l) n c).toList = l ++ List.replicate (n - l.length) c := by
  unfold jsPadEnd
  have hlen : (String.mk l).length = l.length := rfl
  by_cases hc : n ≤ (String.mk l).length
  · rw [if_pos hc]
    have : n = l.length := by rw [hlen] at hc; omega
    simp [this]
  · rw [if_neg hc, hlen]
    rfl

theorem flatten_blocks_length (s : String) (hcodes : ∀ c ∈ s.toList, c.toNat ≤ 255) :
    ((s.toList.map (fun c => byteHexU c.toNat)).flatten).length = 2 * s.length := by
  rw [List.length_flatten, List.map_map]
  rw [show List.map (List.length ∘ fun c => byteHexU c.toNat) s.toList =
      List.map (fun _ => 2) s.toList from List.map_congr_left
        (fun c hc => byteHexU_length c.toNat (Nat.lt_succ_of_le (hcodes c hc)))]
  rw [List.map_const', List.sum_const_nat]
  have : s.toList.length = s.length := rfl
  omega

theorem stringToHex_toList (s : String) (hlen : s.length ≠ 3) (hle : s.length ≤ 20)
    (hcodes : ∀ c ∈ s.toList, c.toNat ≤ 255) :
    (stringToHex s).toList =
      (s.toList.map (fun c => byteHexU c.toNat)).flatten ++
        List.replicate (40 - 2 * s.length) '0' := by
  have hcond : (s.length == 3) = false := by simpa using hlen
  have hbody := flatten_blocks_length s hcodes
  rw [show stringToHex s =
      jsToUpper (jsPadEnd (String.mk
        ((s.toList.map (fun c => (jsPadStart (natToHexLower c.toNat) 2 '0').toList)).flatten))
        40 '0') from by rw [stringToHex, hcond]; rfl]
  have hblen :
      ((s.toList.map (fun c => (jsPadStart (natToHexLower c.toNat) 2 '0').toList)).flatten).length
        = 2 * s.length := by
    have hb2 : ∀ c ∈ s.toList,
        ((jsPadStart (natToHexLower c.toNat) 2 '0').toList).length = 2 := by
      intro c hc
      have h2 := byteHexU_length c.toNat (Nat.lt_succ_of_le (hcodes c hc))
      simpa [byteHexU] using h2
    rw [List.length_flatten, List.map_map]
    rw [show List.map
        (List.length ∘ fun c => (jsPadStart (natToHexLower c.toNat) 2 '0').toList) s.toList =
        List.map (fun _ => 2) s.toList from List.map_congr_left hb2]
    rw [List.map_const', List.sum_const_nat]
    have : s.toList.length = s.length := rfl
    omega
  have h2 : ∀ t : String, (jsToUpper t).toList = t.toList.map asciiUpperChar := fun _ => rfl
  have h1 : (jsPadEnd (String.mk
      ((s.toList.map (fun c => (jsPadStart (natToHexLower c.toNat) 2 '0').toList)).flatten))
      40 '0').toList =
      (s.toList.map (fun c => (jsPadStart (natToHexLower c.toNat) 2 '0').toList)).flatten ++
        List.replicate (40 - 2 * s.length) '0' := by
    rw [jsPadEnd_toList _ _ _ (by omega), hblen]
  rw [h2, h1, List.map_append]
  congr 1
  · rw [List.map_flatten, List.map_map]
    rfl
  · rw [List.map_replicate]
    rfl

/-- C5 (amended): `stringToHex` returns every length-3 string unchanged; for
a string whose length differs from 3, is at most 20, and whose character
codes all fit one byte, the result has length exactly 40, consists only of
uppercase hex digits, and its first `2 * len` hex digits are the character
codes of the input (two uppercase hex digits per character).  (Longer
strings or characters above `255` produce more than 40 hex characters, which
`padEnd` does not truncate.) -/
theorem stringToHex_spec (s3 s : String) (h3 : s3.length = 3)
    (hlen : s.length ≠ 3) (hle : s.length ≤ 20)
    (hcodes : ∀ c ∈ s.toList, c.toNat ≤ 255) :
    stringToHex s3 = s3 ∧
    (stringToHex s).length = 40 ∧
    (stringToHex s).toList.all isUpperHexDigit = true ∧
    (stringToHex s).toList.take (2 * s.length) =
      (s.toList.map (fun c => byteHexU c.toNat)).flatten := by
  have hch := stringToHex_toList s hlen hle hcodes
  have hfl := flatten_blocks_length s hcodes
  refine ⟨by simp [stringToHex, h3], ?_, ?_, ?_⟩
  · have hsl : (stringToHex s).length = ((stringToHex s).toList).length := rfl
    rw [hsl, hch, List.length_append, hfl, List.length_replicate]
    omega
  · rw [hch, List.all_eq_true]
    intro x hx
    rcases List.mem_append.mp hx with hx | hx
    · obtain ⟨b, hb, hxb⟩ := List.mem_flatten.mp hx
      obtain ⟨c, hc, rfl⟩ := List.mem_map.mp hb
      have hupper := byteHexU_upper c.toNat (Nat.lt_succ_of_le (hcodes c hc))
      exact List.all_eq_true.mp hupper x hxb
    · rw [List.eq_of_mem_replicate hx]
      decide
  · rw [hch, List.take_left' hfl]

/-- Counterexample to C5 as stated: a 21-character string encodes to 42 hex
characters (`padEnd` pads but never truncates), and the one-character string
holding the euro sign (code 8364) occupies four hex digits, so the first
`2 * len` digits are not its character code as a 2-digit byte. -/
theorem stringToHex_not_forty :
    (stringToHex "AAAAAAAAAAAAAAAAAAAAA").length ≠ 40 ∧
    (stringToHex "€").toList.take (2 * "€".length) ≠
      ("€".toList.map (fun c => byteHexU c.toNat)).flatten := by decide

/-- Witness for C5 on the standard code ABC and the 4-character code ABCD. -/
theorem stringToHex_spec_witness :
    "ABC".length = 3 ∧ "ABCD".length ≠ 3 ∧ "ABCD".length ≤ 20 ∧
    (∀ c ∈ "ABCD".toList, c.toNat ≤ 255) ∧
    (stringToHex "ABC" = "ABC" ∧
      (stringToHex "ABCD").length = 40 ∧
      (stringToHex "ABCD").toList.all isUpperHexDigit = true ∧
      (stringToHex "ABCD").toList.take (2 * "ABCD".length) =
        ("ABCD".toList.map (fun c => byteHexU c.toNat)).flatten) :=
  ⟨by decide, by decide, by decide, by decide,
    stringToHex_spec "ABC" "ABCD" (by decide) (by decide) (by decide) (by decide)⟩

theorem byteHexU_pair (n : Nat) (h1 : 1 ≤ n) (h2 : n ≤ 255) :
    ∃ a b, byteHexU n = [a, b] ∧ jsParseIntHex [a, b] = some (Int.ofNat n) := by
  obtain ⟨a, b, hab⟩ := List.length_eq_two.mp (byteHexU_length n (by omega))
  exact ⟨a, b, hab, by rw [← hab]; exact byteHexU_parse n (by omega)⟩

theorem decodeHexPairs_blocks : ∀ (codes : List Nat) (k : Nat),
    (∀ n ∈ codes, 1 ≤ n ∧ n ≤ 255) →
    decodeHexPairs ((codes.map byteHexU).flatten ++ List.replicate (2 * k) '0') =
      codes.map Char.ofNat
  | [], k, _ => by
    cases k with
    | zero => rfl
    | succ j =>
      rw [show 2 * (j + 1) = 2 * j + 1 + 1 from by omega]
      simp only [List.map_nil, List.flatten_nil, List.nil_append, List.replicate_succ]
      have hzz : jsParseIntHex ['0', '0'] = some 0 := by decide
      simp [decodeHexPairs, hzz]
  | n :: ns, k, hc => by
    obtain ⟨a, b, hab, hparse⟩ :=
      byteHexU_pair n (hc n (by simp)).1 (hc n (by simp)).2
    have ih := decodeHexPairs_blocks ns k (fun m hm => hc m (List.mem_cons_of_mem _ hm))
    rw [List.map_cons, List.flatten_cons, hab]
    simp only [List.cons_append, List.map_cons]
    have hn1 := (hc n (by simp)).1
    have hn2 := (hc n (by simp)).2
    have hne : (jsParseIntHex [a, b] == some (0 : Int)) = false := by
      rw [hparse, some_beq_some_int]
      apply beq_eq_false_iff_ne.mpr
      intro he
      rw [Int.ofNat_eq_coe] at he
      omega
    simp only [decodeHexPairs, hne, Bool.false_eq_true, if_false, ih]
    congr 1
    rw [hparse]
    simp only [jsFromCharCode, Int.ofNat_eq_coe]
    congr 1
    omega

theorem mk_cons_isEmpty (c : Char) (l : List Char) :
    (String.mk (c :: l)).isEmpty = false := by
  rw [String.isEmpty]
  apply beq_eq_false_iff_ne.mpr
  intro he
  have hb : (String.mk (c :: l)).endPos.byteIdx = (0 : String.Pos).byteIdx := by rw [he]
  have hsize : (String.mk (c :: l)).endPos.byteIdx =
      String.utf8ByteSize.go l + c.utf8Size := rfl
  have h0 : (0 : String.Pos).byteIdx = 0 := rfl
  have hpos := Char.utf8Size_pos c
  omega

/-- C10 (confirmed): for every string of length 1 to 20 (length 3 included)
whose character codes all lie in 1..255 and which carries no leading or
trailing whitespace, decoding the encoding returns the string itself:
`hexToString (stringToHex s) = s`.  The documented general encode/decode
asymmetry does not apply to such strings, which cover all currencies of the
default whitelist. -/
theorem decode_encode_roundtrip (s : String)
    (hl1 : 1 ≤ s.length) (hl2 : s.length ≤ 20)
    (hcodes : ∀ c ∈ s.toList, 1 ≤ c.toNat ∧ c.toNat ≤ 255)
    (htrim : jsTrim s = s) :
    hexToString (stringToHex s) = s := by
  by_cases h3 : s.length = 3
  · rw [show stringToHex s = s from by simp [stringToHex, h3]]
    have : s.length ≠ 40 := by omega
    simp [hexToString, this]
  · have hch := stringToHex_toList s h3 hl2 (fun c hc => (hcodes c hc).2)
    have hfl := flatten_blocks_length s (fun c hc => (hcodes c hc).2)
    have hlen40 : (stringToHex s).length = 40 := by
      have hsl : (stringToHex s).length = ((stringToHex s).toList).length := rfl
      rw [hsl, hch, List.length_append, hfl, List.length_replicate]
      omega
    have hdecode : decodeHexPairs ((stringToHex s).toList) = s.toList := by
      rw [hch]
      have hmm : (s.toList.map (fun c => byteHexU c.toNat)).flatten =
          ((s.toList.map Char.toNat).map byteHexU).flatten := by
        rw [List.map_map]
        rfl
      rw [hmm, show 40 - 2 * s.length = 2 * (20 - s.length) from by omega]
      rw [decodeHexPairs_blocks (s.toList.map Char.toNat) (20 - s.length)
        (by
          intro m hm
          obtain ⟨c, hc2, rfl⟩ := List.mem_map.mp hm
          exact hcodes c hc2)]
      rw [List.map_map]
      rw [show (Char.ofNat ∘ Char.toNat) = id from funext fun c => Char.ofNat_toNat c]
      exact List.map_id s.toList
    have hmk : String.mk s.toList = s := rfl
    have hne : (stringToHex s).length ≠ 40 → False := fun h => h hlen40
    rw [hexToString, if_neg (by omega)]
    rw [hdecode, hmk]
    obtain ⟨c, l, hcl⟩ : ∃ c l, s.toList = c :: l := by
      cases hx : s.toList with
      | nil =>
        have hsl : s.toList.length = s.length := rfl
        rw [hx] at hsl
        simp at hsl
        omega
      | cons c l => exact ⟨c, l, rfl⟩
    have hie : s.isEmpty = false := by
      rw [show s = String.mk (c :: l) from by rw [← hcl]; rfl]
      exact mk_cons_isEmpty c l
    simp only [htrim, hie, Bool.false_eq_true, if_false]

/-- Witness for C10 on the default-whitelist currency GreedyJEW. -/
theorem decode_encode_roundtrip_witness :
    1 ≤ "GreedyJEW".length ∧ "GreedyJEW".length ≤ 20 ∧
    (∀ c ∈ "GreedyJEW".toList, 1 ≤ c.toNat ∧ c.toNat ≤ 255) ∧
    jsTrim "GreedyJEW" = "GreedyJEW" ∧
    hexToString (stringToHex "GreedyJEW") = "GreedyJEW" :=
  ⟨by decide, by decide, by decide, by decide,
    decode_encode_roundtrip "GreedyJEW" (by decide) (by decide) (by decide) (by decide)⟩
